import Mathlib

/-!
Verification of the HA-Dash browser utilities (`src/http/js/utils.js`):
the retry-with-backoff request executor `fetchWithRetry`, its JSON wrapper
`fetchJsonWithRetry`, and the UI status presenter `showStatus`.

The JavaScript source is embedded shallowly:
* a "request sequence" is a function from attempt index to the outcome of the
  underlying `fetch` call (a response with a numeric status, or a transport
  error rejection);
* durations are rationals (JS numbers; all operations used are `*` and `min`);
* the executor is modelled as a pure function returning the final result
  together with the observable trace: how many physical attempts were made,
  the `onRetry(attemptNumber, delay)` invocations, and the `sleep(delay)`
  waits, in order;
* the DOM is a partial map from element id to an element carrying its
  `textContent` and its `classList`.
-/

namespace HADash

/-- A `fetch` response as the executor observes it: numeric status, the
`statusText`, and the raw body (consumed only by `response.json()`). -/
structure Response where
  status : Nat
  statusText : String
  body : String
deriving DecidableEq, Repr

/-- The errors that flow through the executor: `http s t` is the
`new Error(\x7bHTTP s: t\x7d)` the executor constructs from a non-ok status, and
`transport m` is a rejection of the underlying `fetch` call itself
(DNS failure, connection refused, timeout, ...); `parseFailure m` is a
rejection of `response.json()` on a malformed body (a `SyntaxError`). -/
inductive JsError where
  | http (status : Nat) (statusText : String)
  | transport (msg : String)
  | parseFailure (msg : String)
deriving DecidableEq, Repr

/-- Outcome of one underlying `fetch(url, options)` call: either it resolves
with a response or it rejects with a transport-level error. -/
inductive FetchOutcome where
  | response (r : Response)
  | transportError (e : JsError)
deriving DecidableEq, Repr

/-- The `retryConfig` destructured at the top of `fetchWithRetry`.
Source defaults: `maxRetries = 3`, `initialDelay = 1000`, `maxDelay = 30000`,
`backoffMultiplier = 2`.  The `onRetry` callback is not a field: its
invocations are recorded in the run trace instead. -/
structure RetryConfig where
  maxRetries : Nat
  initialDelay : ℚ
  maxDelay : ℚ
  backoffMultiplier : ℚ
deriving DecidableEq, Repr

/-- The source's default `retryConfig`. -/
def defaultRetryConfig : RetryConfig := ⟨3, 1000, 30000, 2⟩

/-- `response.ok` of the Fetch API: status in the inclusive range 200..299. -/
def Response.ok (r : Response) : Prop := 200 ≤ r.status ∧ r.status < 300

instance (r : Response) : Decidable r.ok := by unfold Response.ok; infer_instance

/-- What one iteration of the `try \x7b...\x7d catch` block in `fetchWithRetry`
computes from the outcome of its `fetch` call, before the retry decision:

* `if (response.ok) return response;` — success, the response is returned;
* `if (response.status >= 400 && response.status < 500) throw new Error(...)`
  — note this `throw` sits INSIDE the `try`, so the function's own `catch`
  receives the error: it is stored in `lastError` and the loop then proceeds
  exactly as for any other caught error (the preceding comment in the source,
  "For 4xx errors (client errors), don't retry", is not what the code does);
* otherwise (5xx and any other non-ok status)
  `lastError = new Error(...)` with the same message shape;
* a rejection of `fetch` itself is caught and stored in `lastError`.

All three failure paths therefore produce an error value and continue to the
same retry decision, which is what this function's `.error` result feeds. -/
def classifyOutcome (o : FetchOutcome) : Except JsError Response :=
  match o with
  | .response r =>
      if r.ok then
        .ok r
      else if 400 ≤ r.status ∧ r.status < 500 then
        .error (.http r.status r.statusText)
      else
        .error (.http r.status r.statusText)
  | .transportError e => .error e

/-- `Math.min(a, b)`: the smaller of the two numbers. -/
def jsMin (a b : ℚ) : ℚ := if a ≤ b then a else b

theorem jsMin_eq_min (a b : ℚ) : jsMin a b = min a b := by
  simp [jsMin, min_def]

instance {ε α : Type} [DecidableEq ε] [DecidableEq α] :
    DecidableEq (Except ε α) := fun
  | .ok a, .ok b => decidable_of_iff (a = b) (by simp)
  | .ok _, .error _ => .isFalse (by simp)
  | .error _, .ok _ => .isFalse (by simp)
  | .error e, .error f => decidable_of_iff (e = f) (by simp)

/-- The observable result of one `fetchWithRetry` invocation: the value
returned or the error thrown, the number of physical `fetch` calls, the
`onRetry(attemptNumber, delay)` invocations in order, and the `sleep(delay)`
waits in order. -/
structure RunResult where
  result : Except JsError Response
  attempts : Nat
  retries : List (Nat × ℚ)
  waits : List ℚ
deriving DecidableEq, Repr

/-- The `for (let attempt = 0; attempt <= maxRetries; attempt++)` loop of
`fetchWithRetry`, from a loop state onwards.  `remaining` is
`maxRetries - attempt`, so the source's last-attempt test
`attempt === maxRetries` (equivalently the negation of its wait-guard
`attempt < maxRetries`, since the loop maintains `attempt ≤ maxRetries`)
is `remaining = 0`; recursion is structural on `remaining`.

Per iteration, on a failure with attempts remaining the source runs
`onRetry(attempt + 1, delay)` (when supplied), `await sleep(delay)`, then
`delay = Math.min(delay * backoffMultiplier, maxDelay)`; with no attempt
remaining it breaks out (or falls out of the loop) and throws the error it
just recorded in `lastError`. -/
def runFrom (fetchOutcomes : Nat → FetchOutcome) (mult maxD : ℚ) :
    Nat → Nat → ℚ → RunResult
  | remaining, attempt, delay =>
    match classifyOutcome (fetchOutcomes attempt) with
    | .ok r => ⟨.ok r, 1, [], []⟩
    | .error e =>
      match remaining with
      | 0 => ⟨.error e, 1, [], []⟩
      | rem + 1 =>
        let rest := runFrom fetchOutcomes mult maxD rem (attempt + 1)
          (jsMin (delay * mult) maxD)
        ⟨rest.result, rest.attempts + 1, (attempt + 1, delay) :: rest.retries,
          delay :: rest.waits⟩

/-- `fetchWithRetry(url, options, retryConfig)`: run the retry loop from
attempt 0 with `delay = initialDelay`.  The url/options pair is abstracted
into `fetchOutcomes`, the outcome of the underlying call at each attempt. -/
def fetchWithRetry (fetchOutcomes : Nat → FetchOutcome) (cfg : RetryConfig) :
    RunResult :=
  runFrom fetchOutcomes cfg.backoffMultiplier cfg.maxDelay cfg.maxRetries 0
    cfg.initialDelay

/-- The pure backoff sequence: `delaySeq init mult maxD n` is the delay used
before the `(n+1)`-st retry, i.e. `init` advanced `n` times by
`d => min (d * mult) maxD`. -/
def delaySeq (init mult maxD : ℚ) : Nat → ℚ
  | 0 => init
  | n + 1 => jsMin (delaySeq init mult maxD n * mult) maxD

/-- Result of one `fetchJsonWithRetry` invocation: like `RunResult` but the
success value is the parsed payload, and `parses` counts how many times a
response body was parsed (`await response.json()`). -/
structure JsonRunResult (α : Type) where
  result : Except JsError α
  attempts : Nat
  retries : List (Nat × ℚ)
  waits : List ℚ
  parses : Nat

/-- `fetchJsonWithRetry(url, options, retryConfig)`:
`const response = await fetchWithRetry(url, options, retryConfig);`
`return await response.json();` — the body parser (`response.json()`, browser
behaviour abstracted as `parse`) runs only when `fetchWithRetry` resolved,
and whatever it produces (payload or parse error) is the caller's result. -/
def fetchJsonWithRetry {α : Type} (fetchOutcomes : Nat → FetchOutcome)
    (parse : Response → Except JsError α) (cfg : RetryConfig) :
    JsonRunResult α :=
  let r := fetchWithRetry fetchOutcomes cfg
  match r.result with
  | .error e => ⟨.error e, r.attempts, r.retries, r.waits, 0⟩
  | .ok resp => ⟨parse resp, r.attempts, r.retries, r.waits, 1⟩

/-- A DOM element as `showStatus` touches it: its `textContent` and its
`classList`.  A `DOMTokenList` holds no duplicates; we carry a plain list and
model `add`/`remove` with that invariant-preserving semantics below. -/
structure Element where
  textContent : String
  classList : List String
deriving DecidableEq, Repr

/-- `element.classList.remove('status-info', ..., 'status-running')`:
every listed token is removed. -/
def classListRemove (cs : List String) (tokens : List String) : List String :=
  cs.filter (fun c => !tokens.contains c)

/-- `element.classList.add(c)`: appends the token unless already present. -/
def classListAdd (cs : List String) (c : String) : List String :=
  if cs.contains c then cs else cs ++ [c]

/-- The five status classes `showStatus` removes before applying a new one. -/
def statusClasses : List String :=
  ["status-info", "status-success", "status-error", "status-warning",
    "status-running"]

/-- The `classMap` object literal in `showStatus`; `none` models a key miss
(`classMap[type]` being `undefined`, hence falsy). -/
def classMap (type : String) : Option String :=
  if type = "info" then some "status-info"
  else if type = "success" then some "status-success"
  else if type = "running" then some "status-running"
  else if type = "error" then some "status-error"
  else if type = "warning" then some "status-warning"
  else none

/-- The body of `showStatus` once the element has been found:
set `textContent`, remove the five existing status classes, then add
`classMap[type]` when the map has the key. -/
def showStatusOnElement (el : Element) (message type : String) : Element :=
  let el1 : Element := ⟨message, el.classList⟩
  let el2 : Element := ⟨el1.textContent, classListRemove el1.classList statusClasses⟩
  match classMap type with
  | some c => ⟨el2.textContent, classListAdd el2.classList c⟩
  | none => el2

/-- The document, as `document.getElementById` exposes it: a partial map from
element id to element. -/
def Dom : Type := String → Option Element

/-- `showStatus(elementId, message, type)`: look the element up; when absent,
`if (!element) return;` leaves everything untouched; otherwise update that
element in place. -/
def showStatus (dom : Dom) (elementId message type : String) : Dom :=
  match dom elementId with
  | none => dom
  | some el => fun id =>
      if id = elementId then some (showStatusOnElement el message type)
      else dom id

/-! ## Helper lemmas about the retry loop -/

theorem classifyOutcome_ok (r : Response) (h : r.ok) :
    classifyOutcome (.response r) = .ok r := by
  simp [classifyOutcome, h]

theorem runFrom_of_ok (f : Nat → FetchOutcome) (m M : ℚ) (rem attempt : Nat)
    (d : ℚ) (r : Response) (h : classifyOutcome (f attempt) = .ok r) :
    runFrom f m M rem attempt d = ⟨.ok r, 1, [], []⟩ := by
  unfold runFrom
  rw [h]

theorem runFrom_of_error_zero (f : Nat → FetchOutcome) (m M : ℚ) (attempt : Nat)
    (d : ℚ) (e : JsError) (h : classifyOutcome (f attempt) = .error e) :
    runFrom f m M 0 attempt d = ⟨.error e, 1, [], []⟩ := by
  unfold runFrom
  rw [h]

theorem runFrom_of_error_succ (f : Nat → FetchOutcome) (m M : ℚ)
    (rem attempt : Nat) (d : ℚ) (e : JsError)
    (h : classifyOutcome (f attempt) = .error e) :
    runFrom f m M (rem + 1) attempt d =
      ⟨(runFrom f m M rem (attempt + 1) (jsMin (d * m) M)).result,
        (runFrom f m M rem (attempt + 1) (jsMin (d * m) M)).attempts + 1,
        (attempt + 1, d) :: (runFrom f m M rem (attempt + 1) (jsMin (d * m) M)).retries,
        d :: (runFrom f m M rem (attempt + 1) (jsMin (d * m) M)).waits⟩ := by
  conv_lhs => unfold runFrom
  rw [h]

theorem runFrom_attempts_le (f : Nat → FetchOutcome) (m M : ℚ) :
    ∀ (rem attempt : Nat) (d : ℚ),
      (runFrom f m M rem attempt d).attempts ≤ rem + 1 := by
  intro rem
  induction rem with
  | zero =>
    intro attempt d
    cases h : classifyOutcome (f attempt) with
    | ok r => rw [runFrom_of_ok f m M _ _ _ _ h]
    | error e => rw [runFrom_of_error_zero f m M _ _ _ h]
  | succ k ih =>
    intro attempt d
    cases h : classifyOutcome (f attempt) with
    | ok r =>
      rw [runFrom_of_ok f m M _ _ _ _ h]
      exact Nat.le_add_left 1 (k + 1)
    | error e =>
      rw [runFrom_of_error_succ f m M _ _ _ _ h]
      exact Nat.succ_le_succ (ih (attempt + 1) (jsMin (d * m) M))

theorem runFrom_congr (f g : Nat → FetchOutcome) (m M : ℚ) :
    ∀ (rem attempt : Nat) (d : ℚ),
      (∀ i, attempt ≤ i → i ≤ attempt + rem → f i = g i) →
      runFrom f m M rem attempt d = runFrom g m M rem attempt d := by
  intro rem
  induction rem with
  | zero =>
    intro attempt d hag
    have hfg : f attempt = g attempt := hag attempt le_rfl (Nat.le_add_right _ _)
    unfold runFrom
    rw [hfg]
  | succ k ih =>
    intro attempt d hag
    have hfg : f attempt = g attempt := hag attempt le_rfl (Nat.le_add_right _ _)
    have hrec := ih (attempt + 1) (jsMin (d * m) M) (fun i h1 h2 =>
      hag i (Nat.le_of_succ_le h1) (by omega))
    cases h : classifyOutcome (f attempt) with
    | ok r =>
      rw [runFrom_of_ok f m M _ _ _ _ h, runFrom_of_ok g m M _ _ _ r (hfg ▸ h)]
    | error e =>
      rw [runFrom_of_error_succ f m M _ _ _ _ h,
        runFrom_of_error_succ g m M _ _ _ _ (hfg ▸ h), hrec]

theorem delaySeq_le_maxD (init mult maxD : ℚ) (h : init ≤ maxD) :
    ∀ n, delaySeq init mult maxD n ≤ maxD := by
  intro n
  cases n with
  | zero => exact h
  | succ k =>
    show jsMin (delaySeq init mult maxD k * mult) maxD ≤ maxD
    rw [jsMin_eq_min]
    exact min_le_right _ _

theorem delaySeq_nonneg (init mult maxD : ℚ) (h0 : 0 ≤ init) (hM : 0 ≤ maxD)
    (hm : 0 ≤ mult) : ∀ n, 0 ≤ delaySeq init mult maxD n := by
  intro n
  induction n with
  | zero => exact h0
  | succ k ih =>
    show 0 ≤ jsMin (delaySeq init mult maxD k * mult) maxD
    rw [jsMin_eq_min]
    exact le_min (mul_nonneg ih hm) hM

theorem delaySeq_mono_succ (init mult maxD : ℚ) (h0 : 0 ≤ init)
    (hm : 1 ≤ mult) (hle : init ≤ maxD) :
    ∀ n, delaySeq init mult maxD n ≤ delaySeq init mult maxD (n + 1) := by
  intro n
  have hn0 : 0 ≤ delaySeq init mult maxD n :=
    delaySeq_nonneg init mult maxD h0 (le_trans h0 hle)
      (le_trans zero_le_one hm) n
  have hnM : delaySeq init mult maxD n ≤ maxD := delaySeq_le_maxD init mult maxD hle n
  show _ ≤ jsMin (delaySeq init mult maxD n * mult) maxD
  rw [jsMin_eq_min]
  exact le_min (le_mul_of_one_le_right hn0 hm) hnM

theorem delaySeq_mono (init mult maxD : ℚ) (h0 : 0 ≤ init) (hm : 1 ≤ mult)
    (hle : init ≤ maxD) : Monotone (delaySeq init mult maxD) :=
  monotone_nat_of_le_succ (delaySeq_mono_succ init mult maxD h0 hm hle)

theorem delaySeq_shift (d m M : ℚ) :
    ∀ k, delaySeq (jsMin (d * m) M) m M k = delaySeq d m M (k + 1) := by
  intro k
  induction k with
  | zero => rfl
  | succ n ih =>
    show jsMin (delaySeq (jsMin (d * m) M) m M n * m) M = _
    rw [ih]
    rfl

theorem runFrom_waits_delaySeq (f : Nat → FetchOutcome) (m M : ℚ) :
    ∀ (rem attempt : Nat) (d : ℚ),
      (runFrom f m M rem attempt d).waits =
        (List.range (runFrom f m M rem attempt d).waits.length).map
          (delaySeq d m M) := by
  intro rem
  induction rem with
  | zero =>
    intro attempt d
    cases h : classifyOutcome (f attempt) with
    | ok r => rw [runFrom_of_ok f m M _ _ _ _ h]; rfl
    | error e => rw [runFrom_of_error_zero f m M _ _ _ h]; rfl
  | succ k ih =>
    intro attempt d
    cases h : classifyOutcome (f attempt) with
    | ok r => rw [runFrom_of_ok f m M _ _ _ _ h]; rfl
    | error e =>
      rw [runFrom_of_error_succ f m M _ _ _ _ h]
      have ihw := ih (attempt + 1) (jsMin (d * m) M)
      show d :: (runFrom f m M k (attempt + 1) (jsMin (d * m) M)).waits =
        (List.range ((d :: (runFrom f m M k (attempt + 1) (jsMin (d * m) M)).waits).length)).map
          (delaySeq d m M)
      rw [List.length_cons, List.range_succ_eq_map, List.map_cons, List.map_map]
      refine congrArg₂ _ rfl ?_
      conv_lhs => rw [ihw]
      refine List.map_congr_left ?_
      intro a _
      show delaySeq (jsMin (d * m) M) m M a = delaySeq d m M (Nat.succ a)
      exact delaySeq_shift d m M a

theorem runFrom_ok_after_failures (f : Nat → FetchOutcome) (m M : ℚ) :
    ∀ (k rem attempt : Nat) (d : ℚ) (r : Response), k ≤ rem →
      (∀ j, j < k → ∃ e, classifyOutcome (f (attempt + j)) = .error e) →
      classifyOutcome (f (attempt + k)) = .ok r →
      (runFrom f m M rem attempt d).result = .ok r ∧
        (runFrom f m M rem attempt d).attempts = k + 1 ∧
        (runFrom f m M rem attempt d).retries.length = k ∧
        (runFrom f m M rem attempt d).waits.length = k := by
  intro k
  induction k with
  | zero =>
    intro rem attempt d r _ _ hok
    rw [runFrom_of_ok f m M rem attempt d r (by simpa using hok)]
    exact ⟨rfl, rfl, rfl, rfl⟩
  | succ k ih =>
    intro rem attempt d r hk hfail hok
    obtain ⟨e, he⟩ := hfail 0 (Nat.succ_pos k)
    obtain ⟨rem1, rfl⟩ : ∃ rem1, rem = rem1 + 1 := ⟨rem - 1, by omega⟩
    rw [runFrom_of_error_succ f m M rem1 attempt d e (by simpa using he)]
    have hfail1 : ∀ j, j < k →
        ∃ e1, classifyOutcome (f (attempt + 1 + j)) = .error e1 := by
      intro j hj
      have heq : attempt + 1 + j = attempt + (j + 1) := by omega
      rw [heq]
      exact hfail (j + 1) (by omega)
    have hok1 : classifyOutcome (f (attempt + 1 + k)) = .ok r := by
      have heq : attempt + 1 + k = attempt + (k + 1) := by omega
      rw [heq]
      exact hok
    obtain ⟨h1, h2, h3, h4⟩ :=
      ih rem1 (attempt + 1) (jsMin (d * m) M) r (by omega) hfail1 hok1
    exact ⟨h1, by simpa using h2, by simpa using h3, by simpa using h4⟩

/-! ## Helper lemmas about the status presenter -/

theorem mem_classListRemove (cs tokens : List String) (c : String) :
    c ∈ classListRemove cs tokens ↔ c ∈ cs ∧ c ∉ tokens := by
  simp [classListRemove, List.contains, List.elem_eq_mem]

theorem mem_classListAdd (cs : List String) (c0 c : String) :
    c ∈ classListAdd cs c0 ↔ c ∈ cs ∨ c = c0 := by
  unfold classListAdd
  split
  case isTrue h =>
    simp only [List.contains, List.elem_eq_mem, decide_eq_true_eq] at h
    constructor
    · exact Or.inl
    · rintro (hc | rfl)
      · exact hc
      · exact h
  case isFalse h => simp

theorem classMap_mem_statusClasses (kind c : String) (h : classMap kind = some c) :
    c ∈ statusClasses := by
  unfold classMap at h
  split_ifs at h <;> simp_all [statusClasses]

theorem showStatusOnElement_textContent (el : Element) (msg kind : String) :
    (showStatusOnElement el msg kind).textContent = msg := by
  unfold showStatusOnElement
  cases classMap kind <;> rfl

theorem mem_showStatusOnElement_classList (el : Element) (msg kind : String)
    (c : String) (hc : c ∈ statusClasses) :
    (c ∈ (showStatusOnElement el msg kind).classList ↔ classMap kind = some c) := by
  unfold showStatusOnElement
  cases hmap : classMap kind with
  | none =>
    simp only [hmap]
    rw [mem_classListRemove]
    constructor
    · rintro ⟨_, habs⟩; exact absurd hc habs
    · intro habs; exact absurd habs (by simp)
  | some c0 =>
    simp only [hmap]
    rw [mem_classListAdd, mem_classListRemove]
    constructor
    · rintro (⟨_, habs⟩ | rfl)
      · exact absurd hc habs
      · rfl
    · intro hsome
      injection hsome with hsome
      exact Or.inr hsome.symm

/-! ## Claim theorems -/

/-- C1: the claim says a status in [400,500) is a terminal failure — raised
immediately, no further attempts, no wait, no `onRetry` — and in particular a
404 on the first attempt raises with zero retry-notifications and zero waits.
The code does the opposite: the `throw` for 4xx statuses sits inside its own
`try`, so the `catch` swallows it and the 404 is retried like a 5xx.  This
theorem evaluates the executor on a request sequence answering 404 at every
attempt, under the default config: 4 physical attempts are performed, the
`onRetry` hook fires 3 times, 3 backoff waits occur, and only then is the
HTTP 404 error raised. -/
theorem fetchWithRetry_retries_404 :
    fetchWithRetry (fun _ => .response ⟨404, "Not Found", ""⟩)
        defaultRetryConfig =
      ⟨.error (.http 404 "Not Found"), 4, [(1, 1000), (2, 2000), (3, 4000)],
        [1000, 2000, 4000]⟩ := by
  norm_num [fetchWithRetry, runFrom, classifyOutcome, jsMin,
    defaultRetryConfig, Response.ok]

/-- C2 counterexample: the claim says every status in [200,400) — including
3xx — is returned immediately as a success.  But the source tests
`response.ok`, which is status in [200,300): a response with status 300 is
not returned; it falls through to the retryable-failure branch and, with
`maxRetries = 0`, the invocation raises `HTTP 300` instead of returning the
response. -/
theorem fetchWithRetry_status300_not_success :
    (fetchWithRetry (fun _ => .response ⟨300, "Multiple Choices", ""⟩)
        ⟨0, 1000, 30000, 2⟩).result = .error (.http 300 "Multiple Choices") := by
  norm_num [fetchWithRetry, runFrom, classifyOutcome, jsMin, Response.ok]

/-- C2 (amended): for every request sequence, if the attempts before attempt
`k` all fail and attempt `k` (still within the attempt budget) returns a
response whose status is in [200,300) — the `response.ok` range — then the
executor returns exactly that response and performs no further attempts. -/
theorem fetchWithRetry_ok_short_circuits (f : Nat → FetchOutcome)
    (cfg : RetryConfig) (k : Nat) (r : Response) (hk : k ≤ cfg.maxRetries)
    (hfail : ∀ j, j < k → ∃ e, classifyOutcome (f j) = .error e)
    (hr : f k = .response r) (h200 : 200 ≤ r.status) (h300 : r.status < 300) :
    (fetchWithRetry f cfg).result = .ok r ∧
      (fetchWithRetry f cfg).attempts = k + 1 := by
  have hok : classifyOutcome (f k) = .ok r := by
    rw [hr]
    exact classifyOutcome_ok r ⟨h200, h300⟩
  have h := runFrom_ok_after_failures f cfg.backoffMultiplier cfg.maxDelay k
    cfg.maxRetries 0 cfg.initialDelay r hk (by simpa using hfail)
    (by simpa using hok)
  exact ⟨h.1, h.2.1⟩

/-- Witness for C2: one 500-failure, then a 204 response: the executor
returns the 204 response after exactly 2 attempts. -/
theorem fetchWithRetry_ok_short_circuits_witness :
    (fetchWithRetry (fun i => if i = 0 then .response ⟨500, "ISE", ""⟩
        else .response ⟨204, "No Content", ""⟩) defaultRetryConfig).result =
      .ok ⟨204, "No Content", ""⟩ ∧
    (fetchWithRetry (fun i => if i = 0 then .response ⟨500, "ISE", ""⟩
        else .response ⟨204, "No Content", ""⟩) defaultRetryConfig).attempts
      = 2 :=
  fetchWithRetry_ok_short_circuits _ defaultRetryConfig 1
    ⟨204, "No Content", ""⟩ (by norm_num [defaultRetryConfig])
    (fun j hj => ⟨.http 500 "ISE", by
      interval_cases j
      decide⟩)
    rfl (by norm_num) (by norm_num)

/-- C3: under the data-model constraints (`backoffMultiplier ≥ 1`,
`initialDelay` a positive duration, `initialDelay ≤ maxDelay`), the sequence
of delays the executor actually waits is exactly an initial segment of the
pure backoff sequence `delaySeq` — which starts at `initialDelay` and
advances by `d => min (d * backoffMultiplier) maxDelay` — and it is
monotonically non-decreasing with every element bounded by `maxDelay`. -/
theorem fetchWithRetry_backoff_contract (f : Nat → FetchOutcome)
    (cfg : RetryConfig) (hm : 1 ≤ cfg.backoffMultiplier)
    (h0 : 0 < cfg.initialDelay) (hle : cfg.initialDelay ≤ cfg.maxDelay) :
    (fetchWithRetry f cfg).waits =
      (List.range (fetchWithRetry f cfg).waits.length).map
        (delaySeq cfg.initialDelay cfg.backoffMultiplier cfg.maxDelay) ∧
    (fetchWithRetry f cfg).waits.Sorted (· ≤ ·) ∧
    ∀ d ∈ (fetchWithRetry f cfg).waits, d ≤ cfg.maxDelay := by
  have hw : (fetchWithRetry f cfg).waits =
      (List.range (fetchWithRetry f cfg).waits.length).map
        (delaySeq cfg.initialDelay cfg.backoffMultiplier cfg.maxDelay) :=
    runFrom_waits_delaySeq f cfg.backoffMultiplier cfg.maxDelay
      cfg.maxRetries 0 cfg.initialDelay
  have hmono := delaySeq_mono cfg.initialDelay cfg.backoffMultiplier
    cfg.maxDelay (le_of_lt h0) hm hle
  refine ⟨hw, ?_, ?_⟩
  · rw [hw]
    exact List.Pairwise.map _ (fun a b hab => hmono (le_of_lt hab))
      (List.pairwise_lt_range _)
  · intro d hd
    rw [hw] at hd
    obtain ⟨j, _, rfl⟩ := List.mem_map.mp hd
    exact delaySeq_le_maxD _ _ _ hle j

/-- Witness for C3: the all-500 sequence under the default config waits
1000, 2000, 4000 — an initial segment of `delaySeq`, sorted, each at most
30000. -/
theorem fetchWithRetry_backoff_contract_witness :
    (fetchWithRetry (fun _ => .response ⟨500, "ISE", ""⟩)
        defaultRetryConfig).waits =
      (List.range (fetchWithRetry (fun _ => .response ⟨500, "ISE", ""⟩)
        defaultRetryConfig).waits.length).map (delaySeq 1000 2 30000) ∧
    (fetchWithRetry (fun _ => .response ⟨500, "ISE", ""⟩)
        defaultRetryConfig).waits.Sorted (· ≤ ·) ∧
    ∀ d ∈ (fetchWithRetry (fun _ => .response ⟨500, "ISE", ""⟩)
        defaultRetryConfig).waits, d ≤ (30000 : ℚ) :=
  fetchWithRetry_backoff_contract _ defaultRetryConfig
    (by norm_num [defaultRetryConfig]) (by norm_num [defaultRetryConfig])
    (by norm_num [defaultRetryConfig])

/-- C4: every invocation terminates (the executor is a total function of the
request sequence and the config) after at most `maxRetries + 1` physical
attempts, and it consults the request sequence only at attempt indices
`0..maxRetries`: two sequences agreeing there produce identical runs. -/
theorem fetchWithRetry_attempt_bound (f : Nat → FetchOutcome)
    (cfg : RetryConfig) :
    (fetchWithRetry f cfg).attempts ≤ cfg.maxRetries + 1 ∧
    ∀ g : Nat → FetchOutcome, (∀ i, i ≤ cfg.maxRetries → f i = g i) →
      fetchWithRetry f cfg = fetchWithRetry g cfg := by
  constructor
  · exact runFrom_attempts_le f cfg.backoffMultiplier cfg.maxDelay
      cfg.maxRetries 0 cfg.initialDelay
  · intro g hag
    exact runFrom_congr f g cfg.backoffMultiplier cfg.maxDelay
      cfg.maxRetries 0 cfg.initialDelay (fun i _ h2 => hag i (by omega))

/-- C5: with `maxRetries = 3` and every attempt answering a 5xx response
(distinguished here by per-attempt status and reason so the attempts are
told apart), exactly 4 attempts are performed, exactly 3 retry-notifications
fire, exactly 3 waits occur (so no wait follows the 4th attempt), and the
error finally raised is precisely the one recorded for the 4th attempt
(status 503, reason `boom3`). -/
theorem fetchWithRetry_all_500_trace :
    fetchWithRetry (fun i => .response ⟨500 + i, "boom" ++ toString i, ""⟩)
        ⟨3, 1000, 30000, 2⟩ =
      ⟨.error (.http 503 "boom3"), 4, [(1, 1000), (2, 2000), (3, 4000)],
        [1000, 2000, 4000]⟩ := by
  norm_num [fetchWithRetry, runFrom, classifyOutcome, jsMin, Response.ok]
  rfl

/-- C6: with the default delays (`initialDelay = 1000`,
`backoffMultiplier = 2`, `maxDelay = 30000`) and any `maxRetries ≥ 2`, the
sequence 500, 500, 200 succeeds on the third attempt with `onRetry` invoked
exactly twice: first with `(1, 1000)`, then with `(2, 2000)`. -/
theorem fetchWithRetry_500_500_200 (n : Nat) (hn : 2 ≤ n) :
    fetchWithRetry
        (fun i => if i < 2 then .response ⟨500, "ISE", ""⟩
          else .response ⟨200, "OK", "body"⟩)
        ⟨n, 1000, 30000, 2⟩ =
      ⟨.ok ⟨200, "OK", "body"⟩, 3, [(1, 1000), (2, 2000)], [1000, 2000]⟩ := by
  obtain ⟨k, rfl⟩ : ∃ k, n = k + 2 := ⟨n - 2, by omega⟩
  show runFrom _ 2 30000 (k + 2) 0 1000 = _
  rw [runFrom_of_error_succ _ 2 30000 (k + 1) 0 1000 (.http 500 "ISE")
    (by decide)]
  rw [runFrom_of_error_succ _ 2 30000 k 1 (jsMin (1000 * 2) 30000)
    (.http 500 "ISE") (by decide)]
  rw [runFrom_of_ok _ 2 30000 k 2
    (jsMin (jsMin (1000 * 2) 30000 * 2) 30000) ⟨200, "OK", "body"⟩
    (by decide)]
  have h1 : jsMin ((1000 : ℚ) * 2) 30000 = 2000 := by norm_num [jsMin]
  rw [h1]

/-- Witness for C6: the instance `maxRetries = 2`. -/
theorem fetchWithRetry_500_500_200_witness :
    fetchWithRetry
        (fun i => if i < 2 then .response ⟨500, "ISE", ""⟩
          else .response ⟨200, "OK", "body"⟩)
        ⟨2, 1000, 30000, 2⟩ =
      ⟨.ok ⟨200, "OK", "body"⟩, 3, [(1, 1000), (2, 2000)], [1000, 2000]⟩ :=
  fetchWithRetry_500_500_200 2 (by norm_num)

/-- C7: with `maxRetries = 0`, whatever the request sequence and the delay
parameters, exactly one physical attempt is performed and the run carries no
retry-notification and no wait; the result is exactly what the single
attempt classified to, so any failure — a transport error or a non-ok
status — is raised immediately. -/
theorem fetchWithRetry_zero_retries (f : Nat → FetchOutcome)
    (init maxD mult : ℚ) :
    fetchWithRetry f ⟨0, init, maxD, mult⟩ =
      ⟨classifyOutcome (f 0), 1, [], []⟩ ∧
    (∀ e, f 0 = .transportError e →
      (fetchWithRetry f ⟨0, init, maxD, mult⟩).result = .error e) ∧
    ∀ r : Response, f 0 = .response r → ¬ r.ok →
      (fetchWithRetry f ⟨0, init, maxD, mult⟩).result =
        .error (.http r.status r.statusText) := by
  have hbase : fetchWithRetry f ⟨0, init, maxD, mult⟩ =
      ⟨classifyOutcome (f 0), 1, [], []⟩ := by
    show runFrom f mult maxD 0 0 init = _
    cases h : classifyOutcome (f 0) with
    | ok r => rw [runFrom_of_ok f mult maxD 0 0 init r h]
    | error e => rw [runFrom_of_error_zero f mult maxD 0 init e h]
  refine ⟨hbase, ?_, ?_⟩
  · intro e he
    rw [hbase, he]
    rfl
  · intro r hr hnok
    rw [hbase, hr]
    simp [classifyOutcome, hnok]

/-- Witness for C7: a connection-refused transport error with
`maxRetries = 0` yields one attempt, no notification, no wait, and the
transport error itself. -/
theorem fetchWithRetry_zero_retries_witness :
    fetchWithRetry (fun _ => .transportError (.transport "refused"))
        ⟨0, 1000, 30000, 2⟩ =
      ⟨classifyOutcome (.transportError (.transport "refused")), 1, [], []⟩ ∧
    (∀ e, (fun _ => FetchOutcome.transportError (.transport "refused")) 0 =
        .transportError e →
      (fetchWithRetry (fun _ => .transportError (.transport "refused"))
        ⟨0, 1000, 30000, 2⟩).result = .error e) ∧
    ∀ r : Response,
      (fun _ => FetchOutcome.transportError (.transport "refused")) 0 =
        .response r → ¬ r.ok →
      (fetchWithRetry (fun _ => .transportError (.transport "refused"))
        ⟨0, 1000, 30000, 2⟩).result = .error (.http r.status r.statusText) :=
  fetchWithRetry_zero_retries (fun _ => .transportError (.transport "refused"))
    1000 30000 2

/-- C8: `showStatus` on an existing target sets the message text, and a
recognized status class is in the resulting class list exactly when it is the
one `classMap` assigns to the given kind — so at most one recognized class is
active, an unmapped kind leaves none active (text still set), and presenting
kind `running` then kind `error` leaves only `status-error` active. -/
theorem showStatus_mutual_exclusion (dom : Dom) (targetId msg kind : String)
    (el : Element) (h : dom targetId = some el) :
    showStatus dom targetId msg kind targetId =
      some (showStatusOnElement el msg kind) ∧
    (showStatusOnElement el msg kind).textContent = msg ∧
    (∀ c ∈ statusClasses,
      c ∈ (showStatusOnElement el msg kind).classList ↔
        classMap kind = some c) ∧
    ∀ m1 m2 : String, ∀ c ∈ statusClasses,
      (c ∈ (showStatusOnElement (showStatusOnElement el m1 "running") m2
          "error").classList ↔ c = "status-error") := by
  refine ⟨?_, showStatusOnElement_textContent el msg kind,
    fun c hc => mem_showStatusOnElement_classList el msg kind c hc, ?_⟩
  · unfold showStatus
    rw [h]
    simp
  · intro m1 m2 c hc
    rw [mem_showStatusOnElement_classList _ m2 "error" c hc]
    have hmap : classMap "error" = some "status-error" := by decide
    rw [hmap]
    simp [eq_comm]

/-- Witness for C8: a concrete document with one target carrying an old
message and the `status-info` class; presenting kind `running` exercises
every conjunct. -/
theorem showStatus_mutual_exclusion_witness :
    (fun i => if i = "server-status"
        then some (⟨"old", ["value", "status-info"]⟩ : Element)
        else none) "server-status" = some ⟨"old", ["value", "status-info"]⟩ ∧
    (showStatus (fun i => if i = "server-status"
        then some (⟨"old", ["value", "status-info"]⟩ : Element) else none)
        "server-status" "Working" "running" "server-status" =
      some (showStatusOnElement ⟨"old", ["value", "status-info"]⟩
        "Working" "running") ∧
    (showStatusOnElement ⟨"old", ["value", "status-info"]⟩ "Working"
        "running").textContent = "Working" ∧
    (∀ c ∈ statusClasses,
      c ∈ (showStatusOnElement ⟨"old", ["value", "status-info"]⟩ "Working"
          "running").classList ↔ classMap "running" = some c) ∧
    ∀ m1 m2 : String, ∀ c ∈ statusClasses,
      (c ∈ (showStatusOnElement
          (showStatusOnElement ⟨"old", ["value", "status-info"]⟩ m1 "running")
          m2 "error").classList ↔ c = "status-error")) :=
  ⟨rfl, showStatus_mutual_exclusion
    (fun i => if i = "server-status"
      then some (⟨"old", ["value", "status-info"]⟩ : Element) else none)
    "server-status" "Working" "running" ⟨"old", ["value", "status-info"]⟩ rfl⟩

/-- C9: the JSON wrapper performs the whole retry sequence first and parses
exactly once, only when that sequence resolved with a response; the parse
outcome — success or failure — is returned to the caller as is, with the
attempt count, retry-notifications and waits identical to the underlying
executor run (a parse failure triggers no extra attempt, wait or
notification); when the executor raises, nothing is parsed and its error
propagates unchanged. -/
theorem fetchJsonWithRetry_parses_once {α : Type} (f : Nat → FetchOutcome)
    (parse : Response → Except JsError α) (cfg : RetryConfig) :
    (fetchJsonWithRetry f parse cfg).attempts = (fetchWithRetry f cfg).attempts ∧
    (fetchJsonWithRetry f parse cfg).retries = (fetchWithRetry f cfg).retries ∧
    (fetchJsonWithRetry f parse cfg).waits = (fetchWithRetry f cfg).waits ∧
    (∀ resp, (fetchWithRetry f cfg).result = .ok resp →
      (fetchJsonWithRetry f parse cfg).parses = 1 ∧
      (fetchJsonWithRetry f parse cfg).result = parse resp) ∧
    (∀ e, (fetchWithRetry f cfg).result = .error e →
      (fetchJsonWithRetry f parse cfg).parses = 0 ∧
      (fetchJsonWithRetry f parse cfg).result = .error e) := by
  unfold fetchJsonWithRetry
  cases h : (fetchWithRetry f cfg).result with
  | ok r => simp [h]
  | error e => simp [h]

/-- Witness for C9: a first-attempt 200 response whose body fails to parse:
one attempt, no notification, no wait, one parse, and the `SyntaxError`
surfaces directly. -/
theorem fetchJsonWithRetry_parses_once_witness :
    (fetchJsonWithRetry (fun _ => .response ⟨200, "OK", "not json"⟩)
        (fun _ => (.error (.parseFailure "Unexpected token") :
          Except JsError Unit)) defaultRetryConfig).parses = 1 ∧
    (fetchJsonWithRetry (fun _ => .response ⟨200, "OK", "not json"⟩)
        (fun _ => (.error (.parseFailure "Unexpected token") :
          Except JsError Unit)) defaultRetryConfig).result =
      .error (.parseFailure "Unexpected token") ∧
    (fetchJsonWithRetry (fun _ => .response ⟨200, "OK", "not json"⟩)
        (fun _ => (.error (.parseFailure "Unexpected token") :
          Except JsError Unit)) defaultRetryConfig).attempts = 1 ∧
    (fetchJsonWithRetry (fun _ => .response ⟨200, "OK", "not json"⟩)
        (fun _ => (.error (.parseFailure "Unexpected token") :
          Except JsError Unit)) defaultRetryConfig).retries = [] ∧
    (fetchJsonWithRetry (fun _ => .response ⟨200, "OK", "not json"⟩)
        (fun _ => (.error (.parseFailure "Unexpected token") :
          Except JsError Unit)) defaultRetryConfig).waits = [] := by
  have hres : (fetchWithRetry (fun _ => .response ⟨200, "OK", "not json"⟩)
      defaultRetryConfig) = ⟨.ok ⟨200, "OK", "not json"⟩, 1, [], []⟩ := by
    norm_num [fetchWithRetry, runFrom, classifyOutcome, defaultRetryConfig,
      Response.ok]
  have h := fetchJsonWithRetry_parses_once
    (fun _ => .response ⟨200, "OK", "not json"⟩)
    (fun _ => (.error (.parseFailure "Unexpected token") :
      Except JsError Unit)) defaultRetryConfig
  obtain ⟨ha, hr, hw, hok, _⟩ := h
  obtain ⟨hp1, hp2⟩ := hok ⟨200, "OK", "not json"⟩ (by rw [hres])
  exact ⟨hp1, hp2, by rw [ha, hres], by rw [hr, hres], by rw [hw, hres]⟩

/-- C10: calling `showStatus` with a target id that resolves to no element is
a complete no-op: the document (every element's text and classes) is
unchanged and nothing is raised (the model is a total function). -/
theorem showStatus_missing_target_noop (dom : Dom) (targetId msg kind : String)
    (h : dom targetId = none) : showStatus dom targetId msg kind = dom := by
  unfold showStatus
  rw [h]

/-- Witness for C10: the empty document. -/
theorem showStatus_missing_target_noop_witness :
    showStatus (fun _ => none) "server-status" "Loading..." "info" =
      (fun _ => none) :=
  showStatus_missing_target_noop (fun _ => none) "server-status" "Loading..."
    "info" rfl

end HADash
